import Mathlib

/-!
Verification development for the guide-creator flow
(src/src/guide_creator_flow/main.py and server.py).

The Python program is a three-stage sequential pipeline:
collect user input, generate a structured outline via an LLM,
then author each section in order while accumulating context,
and finally compile one markdown document.  External effects
(the LLM call, the per-section author crew, stdin, the filesystem)
are modelled as explicit oracles / return values; everything the
repository itself computes is embedded as executable Lean functions.
-/

set_option maxHeartbeats 1000000
set_option maxRecDepth 10000

namespace GuideCreator

/-- A single outline section, mirroring the pydantic model `Section`
in main.py (fields `title`, `description`). -/
structure Section where
  title : String
  description : String
  deriving Repr, DecidableEq

/-- The guide outline, mirroring the pydantic model `GuideOutline` in
main.py (fields `title`, `introduction`, `target_audience`, `sections`,
`conclusion`). -/
structure GuideOutline where
  title : String
  introduction : String
  target_audience : String
  sections : List Section
  conclusion : String
  deriving Repr, DecidableEq

/-! ### A model of the Python `dict` used for `sections_content`

`sections_content` is a `Dict[str, str]`.  A Python dict preserves
insertion order; assignment to an existing key replaces the value in
place, assignment to a fresh key appends.  We model it as an
association list with exactly those operations. -/

/-- Association-list model of `Dict[str, str]`. -/
abbrev Dict := List (String × String)

/-- Python dict lookup `d.get(k, dflt)`: the value stored at the first
(and, for dicts built only by assignment, only) matching key, or the
default. -/
def dictGet (d : Dict) (k : String) (dflt : String) : String :=
  match d with
  | [] => dflt
  | (k', v) :: rest => if k' = k then v else dictGet rest k dflt

/-- Python dict assignment `d[k] = v`: replace in place if the key is
present, append otherwise. -/
def dictSet (d : Dict) (k : String) (v : String) : Dict :=
  match d with
  | [] => [(k, v)]
  | (k', v') :: rest => if k' = k then (k', v) :: rest else (k', v') :: dictSet rest k v

/-- The keys of the dict, in insertion order. -/
def dictKeys (d : Dict) : List String := d.map Prod.fst

/-! ### The flow state (`GuideCreatorState` in main.py) -/

/-- Mirrors the pydantic state class `GuideCreatorState`:
`topic`, `audience_level`, `guide_outline` (optional), and
`sections_content`. -/
structure GuideCreatorState where
  topic : String
  audience_level : String
  guide_outline : Option GuideOutline
  sections_content : Dict
  deriving Repr, DecidableEq

/-- The initial flow state: every field at its default
(`""`, `""`, `None`, `{}`). -/
def initialState : GuideCreatorState :=
  { topic := "", audience_level := "", guide_outline := none, sections_content := [] }

/-! ### Section compiler (`GuideCreatorFlow.write_and_compile_guide`)

The external "section author" capability (`ContentCrew().crew().kickoff`)
is an oracle receiving the five inputs the code passes and returning
either the generated text or a failure (a raised exception). -/

/-- The argument record of one author-capability invocation: exactly the
`inputs` dictionary passed to `ContentCrew().crew().kickoff` in
main.py. -/
structure AuthorCall where
  section_title : String
  section_description : String
  audience_level : String
  previous_sections : String
  draft_content : String
  deriving Repr, DecidableEq

/-- The `previous_sections_text` computed at the top of each loop
iteration in `write_and_compile_guide`: the literal sentence when no
section is completed yet, otherwise a header followed by, for each
completed title in order, a `##` heading block and the stored content,
accumulated by string concatenation exactly as the Python loop does. -/
def renderContext (completed_sections : List String) (sections_content : Dict) : String :=
  if completed_sections.isEmpty then
    "No previous sections written yet."
  else
    completed_sections.foldl
      (fun acc t => acc ++ ("## " ++ t ++ "\n\n" ++ (dictGet sections_content t "" ++ "\n\n")))
      "# Previously Written Sections\n\n"

/-- The `inputs` record passed to the author capability for a single
section, given the loop state (`completed_sections`, `sections_content`)
at that iteration. -/
def mkCall (s : Section) (audience_level : String)
    (completed_sections : List String) (sections_content : Dict) : AuthorCall :=
  { section_title := s.title
    section_description := s.description
    audience_level := audience_level
    previous_sections := renderContext completed_sections sections_content
    draft_content := "" }

/-- One run of the `for section in outline.sections` loop of
`write_and_compile_guide`, with explicit state: `completed_sections`,
`sections_content` and the trace of author invocations made so far.
Returns `none` when the author capability fails (the exception aborts
the whole run). -/
def writeLoop (author : AuthorCall → Option String) (audience_level : String) :
    List Section → List String → Dict → List AuthorCall →
    Option (Dict × List String × List AuthorCall)
  | [], completed_sections, sections_content, calls =>
      some (sections_content, completed_sections, calls)
  | s :: rest, completed_sections, sections_content, calls =>
      let call : AuthorCall := mkCall s audience_level completed_sections sections_content
      match author call with
      | none => none
      | some content =>
          writeLoop author audience_level rest
            (completed_sections ++ [s.title])
            (dictSet sections_content s.title content)
            (calls ++ [call])

/-- The final `guide_content` string assembled after the loop: title
heading, Introduction block, each section's stored content in outline
order (via `sections_content.get(section.title, "")`), Conclusion
block. -/
def compileGuide (outline : GuideOutline) (sections_content : Dict) : String :=
  let base := "# " ++ outline.title ++ "\n\n" ++ ("## Introduction\n\n" ++ outline.introduction ++ "\n\n")
  let withSections := outline.sections.foldl
    (fun acc s => acc ++ ("\n\n" ++ dictGet sections_content s.title "" ++ "\n\n")) base
  withSections ++ ("## Conclusion\n\n" ++ outline.conclusion ++ "\n\n")

/-- The result of a successful `write_and_compile_guide` run:
the document written to `output/complete_guide.md`, the final
`sections_content` map, and the trace of author invocations. -/
structure RunResult where
  document : String
  sections_content : Dict
  calls : List AuthorCall
  deriving Repr, DecidableEq

/-- The method `GuideCreatorFlow.write_and_compile_guide`: run the section loop
starting from an empty `completed_sections` list and the state's
current `sections_content`, then compile and persist the document.
`none` models an aborted run (author exception propagates; the final
file write never happens). -/
def write_and_compile_guide (author : AuthorCall → Option String)
    (audience_level : String) (outline : GuideOutline) (sections_content : Dict) :
    Option RunResult :=
  match writeLoop author audience_level outline.sections [] sections_content [] with
  | none => none
  | some (sc, _completed, calls) =>
      some { document := compileGuide outline sc, sections_content := sc, calls := calls }

/-! ### Input collector (`GuideCreatorFlow.get_user_input`)

stdin is modelled as a list of the strings the user types, one entry
per `input(...)` prompt.  `none` means the input stream was exhausted
while the loop was still re-prompting: the loop itself never surfaces
an error, it only asks again. -/

/-- Python's `str.lower()` on the audience answer, modelled
character-wise. -/
def strLower (s : String) : String := ⟨s.data.map Char.toLower⟩

/-- The `while True` audience loop: read an answer, lower-case it,
accept it if it is one of the three levels, otherwise print the
re-prompt message and ask again. -/
def collectAudienceLevel : List String → Option (String × List String)
  | [] => none
  | a :: rest =>
      let audience := strLower a
      if audience = "beginner" ∨ audience = "intermediate" ∨ audience = "advanced" then
        some (audience, rest)
      else
        collectAudienceLevel rest

/-- The method `GuideCreatorFlow.get_user_input`: the first read is the topic
(stored with no validation), then the audience loop runs; the state is
updated with both values. -/
def get_user_input : List String → Option (GuideCreatorState × List String)
  | [] => none
  | t :: rest =>
      match collectAudienceLevel rest with
      | none => none
      | some (audience, rest') =>
          some ({ initialState with topic := t, audience_level := audience }, rest')

/-! ### Outline generation (`GuideCreatorFlow.create_guide_outline`)

The LLM call and Python's `json.loads` are external; their combined
outcome is modelled as an `Option Json`: `none` when the returned text
is not valid JSON (`json.loads` raises), `some j` for the parsed JSON
value.  `GuideOutline(**outline_dict)` is the pydantic validation,
embedded as `guideOutlineFromJson`. -/

/-- JSON values, as produced by `json.loads`. -/
inductive Json where
  | null
  | bool (b : Bool)
  | num (n : Int)
  | str (s : String)
  | arr (elements : List Json)
  | obj (fields : List (String × Json))

/-- Key lookup in a JSON object (first match). -/
def jsonLookup (fields : List (String × Json)) (k : String) : Option Json :=
  match fields with
  | [] => none
  | (k', v) :: rest => if k' = k then some v else jsonLookup rest k

/-- A required object field: pydantic reports missing fields as a
validation error. -/
def reqField (fields : List (String × Json)) (k : String) : Except String Json :=
  match jsonLookup fields k with
  | some v => Except.ok v
  | none => Except.error ("missing field " ++ k)

/-- A field annotated `str` must hold a JSON string; anything else is a
validation error. -/
def asString : Json → Except String String
  | .str s => Except.ok s
  | _ => Except.error "expected a string"

/-- Validation of one element of `sections` against the `Section`
model. -/
def sectionFromJson (j : Json) : Except String Section :=
  match j with
  | .obj fields =>
      (reqField fields "title").bind fun jt =>
      (asString jt).bind fun t =>
      (reqField fields "description").bind fun jd =>
      (asString jd).map fun d => { title := t, description := d }
  | _ => Except.error "expected an object"

/-- Validation of the `sections` array, element by element. -/
def sectionsFromJson : List Json → Except String (List Section)
  | [] => Except.ok []
  | j :: rest =>
      (sectionFromJson j).bind fun s =>
      (sectionsFromJson rest).map fun ss => s :: ss

/-- The `sections` field must hold a JSON array. -/
def asSectionList (j : Json) : Except String (List Section) :=
  match j with
  | .arr elements => sectionsFromJson elements
  | _ => Except.error "expected an array"

/-- Pydantic validation `GuideOutline(**outline_dict)`: validate the parsed JSON object
against the `GuideOutline` model; any missing or mistyped field is a
validation error, and nothing constrains the number of sections. -/
def guideOutlineFromJson (j : Json) : Except String GuideOutline :=
  match j with
  | .obj fields =>
      (reqField fields "title").bind fun jt =>
      (asString jt).bind fun t =>
      (reqField fields "introduction").bind fun ji =>
      (asString ji).bind fun intro =>
      (reqField fields "target_audience").bind fun ja =>
      (asString ja).bind fun aud =>
      (reqField fields "sections").bind fun js =>
      (asSectionList js).bind fun secs =>
      (reqField fields "conclusion").bind fun jc =>
      (asString jc).map fun conc =>
        { title := t, introduction := intro, target_audience := aud,
          sections := secs, conclusion := conc }
  | _ => Except.error "expected an object"

/-- Serialization of a `Section` to JSON (`model_dump` / the
`outline_dict` shape). -/
def sectionToJson (s : Section) : Json :=
  .obj [("title", .str s.title), ("description", .str s.description)]

/-- Serialization of a `GuideOutline` to JSON, as written to
`output/guide_outline.json`. -/
def guideOutlineToJson (g : GuideOutline) : Json :=
  .obj [("title", .str g.title),
        ("introduction", .str g.introduction),
        ("target_audience", .str g.target_audience),
        ("sections", .arr (g.sections.map sectionToJson)),
        ("conclusion", .str g.conclusion)]

/-- The method `GuideCreatorFlow.create_guide_outline`, stages after the LLM call:
parse the response text as JSON (external, an `Option Json` here) and
validate it into a `GuideOutline`; both failure modes surface as the
error case, with no partial outline. -/
def create_guide_outline (llmResponse : Option Json) : Except String GuideOutline :=
  match llmResponse with
  | none => Except.error "invalid JSON"
  | some j => guideOutlineFromJson j

/-! ### HTTP trigger (`create_guide` in server.py)

The endpoint handler builds a near-empty outline from the request and
schedules `crew.run(outline)` as a fire-and-forget background task.
Exceptions anywhere in the `try` block are modelled by the `failure`
oracle (`some msg` is a raised exception whose `str` is `msg`); the
handler converts them to an HTTP 500 response.  The second component
of the result is the outline handed to `background_tasks.add_task`
(`none` when nothing was scheduled); the outline-generation stage is
never consulted on this path. -/

/-- The request body model `GuideRequest` of server.py. -/
structure GuideRequest where
  topic : String
  target_audience : String
  deriving Repr, DecidableEq

/-- The endpoint's possible HTTP responses: the acknowledgement object
or an `HTTPException` with a status code and detail message. -/
inductive ServerResponse where
  | ack (status : String) (topic : String) (target_audience : String)
  | httpError (statusCode : Nat) (detail : String)
  deriving Repr, DecidableEq

/-- The `/create-guide` handler `create_guide` of server.py. -/
def create_guide (request : GuideRequest) (failure : Option String) :
    ServerResponse × Option GuideOutline :=
  match failure with
  | some msg => (.httpError 500 msg, none)
  | none =>
      let outline : GuideOutline :=
        { title := "Comprehensive Guide to " ++ request.topic
          introduction := ""
          target_audience := request.target_audience
          sections := []
          conclusion := "" }
      (.ack "Guide creation task started successfully" request.topic request.target_audience,
       some outline)

/-! ### Concrete fixtures used by the witness theorems -/

/-- An author capability that always succeeds, with content derived
from the section title. -/
def okAuthor (call : AuthorCall) : Option String :=
  some ("body of " ++ call.section_title)

/-- The two-section outline of the spec's scenario. -/
def okOutline : GuideOutline :=
  { title := "Home Gardening Guide"
    introduction := "intro text"
    target_audience := "beginner"
    sections := [{ title := "Getting Started", description := "d1" },
                 { title := "Tools", description := "d2" }]
    conclusion := "conclusion text" }

/-- The final `sections_content` of the `okAuthor` run on
`okOutline`. -/
def okFinalSc : Dict :=
  [("Getting Started", "body of Getting Started"), ("Tools", "body of Tools")]

/-- The author-call trace of the `okAuthor` run on `okOutline`. -/
def okCalls : List AuthorCall :=
  [{ section_title := "Getting Started", section_description := "d1",
     audience_level := "beginner",
     previous_sections := "No previous sections written yet.", draft_content := "" },
   { section_title := "Tools", section_description := "d2",
     audience_level := "beginner",
     previous_sections :=
       "# Previously Written Sections\n\n## Getting Started\n\nbody of Getting Started\n\n",
     draft_content := "" }]

/-- The full result of the `okAuthor` run on `okOutline`. -/
def okResult : RunResult :=
  { document := compileGuide okOutline okFinalSc
    sections_content := okFinalSc
    calls := okCalls }

/-- An author capability that fails exactly on the section titled
"B". -/
def failingAuthor (call : AuthorCall) : Option String :=
  if call.section_title = "B" then none else some ("text for " ++ call.section_title)

/-- A three-section outline whose second section makes `failingAuthor`
fail. -/
def failOutline : GuideOutline :=
  { title := "T", introduction := "I", target_audience := "beginner"
    sections := [{ title := "A", description := "da" },
                 { title := "B", description := "db" },
                 { title := "C", description := "dc" }]
    conclusion := "Z" }

/-- An author capability that echoes the context it was given. -/
def echoAuthor (call : AuthorCall) : Option String :=
  some call.previous_sections

/-- An outline with two identically titled sections. -/
def dupOutline : GuideOutline :=
  { title := "G", introduction := "I", target_audience := "beginner"
    sections := [{ title := "Dup", description := "first" },
                 { title := "Dup", description := "second" }]
    conclusion := "C" }

/-- The content authored for the second "Dup" section by
`echoAuthor` (which then overwrites the first one's content). -/
def dupLaterContent : String :=
  "# Previously Written Sections\n\n## Dup\n\nNo previous sections written yet.\n\n"

/-- The full result of the `echoAuthor` run on `dupOutline`. -/
def dupResult : RunResult :=
  { document := compileGuide dupOutline [("Dup", dupLaterContent)]
    sections_content := [("Dup", dupLaterContent)]
    calls := [{ section_title := "Dup", section_description := "first",
                audience_level := "beginner",
                previous_sections := "No previous sections written yet.",
                draft_content := "" },
              { section_title := "Dup", section_description := "second",
                audience_level := "beginner",
                previous_sections := dupLaterContent,
                draft_content := "" }] }

/-! ### Helper lemmas: string folds -/

/-- Concatenation of `f` over a list, defined structurally; used to
state what the string-accumulating loops compute. -/
def strJoinMap {α : Type} (f : α → String) : List α → String
  | [] => ""
  | x :: l => f x ++ strJoinMap f l

lemma foldl_append_eq {α : Type} (f : α → String) :
    ∀ (l : List α) (init : String),
      l.foldl (fun acc x => acc ++ f x) init = init ++ strJoinMap f l
  | [], init => by simp [strJoinMap, String.append_empty]
  | x :: l, init => by
      rw [List.foldl_cons, foldl_append_eq f l (init ++ f x), strJoinMap,
        String.append_assoc]

/-- The nonempty case of `renderContext`, written as an explicit
header-plus-blocks string. -/
lemma renderContext_eq_of_ne_nil (completed_sections : List String)
    (sections_content : Dict) (h : completed_sections ≠ []) :
    renderContext completed_sections sections_content =
      "# Previously Written Sections\n\n" ++
        strJoinMap (fun t => "## " ++ t ++ "\n\n" ++ (dictGet sections_content t "" ++ "\n\n"))
          completed_sections := by
  rw [renderContext, if_neg (by simpa using h), foldl_append_eq]

/-- The context of the very first iteration is the literal sentence. -/
lemma renderContext_nil (sections_content : Dict) :
    renderContext [] sections_content = "No previous sections written yet." := rfl

/-- The function `compileGuide`, written as an explicit concatenation in outline
order. -/
lemma compileGuide_eq (outline : GuideOutline) (sections_content : Dict) :
    compileGuide outline sections_content =
      "# " ++ outline.title ++ "\n\n" ++
        ("## Introduction\n\n" ++ outline.introduction ++ "\n\n") ++
      strJoinMap (fun s => "\n\n" ++ dictGet sections_content s.title "" ++ "\n\n")
        outline.sections ++
      ("## Conclusion\n\n" ++ outline.conclusion ++ "\n\n") := by
  rw [compileGuide, foldl_append_eq, String.append_assoc]

/-! ### Helper lemmas: the dict model -/

lemma dictGet_set_self (d : Dict) (k v dflt : String) :
    dictGet (dictSet d k v) k dflt = v := by
  induction d with
  | nil => simp [dictGet, dictSet]
  | cons p rest ih =>
      obtain ⟨k', v'⟩ := p
      by_cases h : k' = k <;> simp [dictGet, dictSet, h, ih]

lemma dictGet_set_ne (d : Dict) (k k' v dflt : String) (h : k' ≠ k) :
    dictGet (dictSet d k v) k' dflt = dictGet d k' dflt := by
  have hne : k ≠ k' := Ne.symm h
  induction d with
  | nil => simp [dictGet, dictSet, hne]
  | cons p rest ih =>
      obtain ⟨k'', v''⟩ := p
      by_cases hk : k'' = k
      · subst hk
        simp [dictGet, dictSet, hne]
      · simp [dictGet, dictSet, hk, ih]

lemma mem_dictKeys_set (d : Dict) (k v t : String) :
    t ∈ dictKeys (dictSet d k v) ↔ t ∈ dictKeys d ∨ t = k := by
  induction d with
  | nil => simp [dictKeys, dictSet]
  | cons p rest ih =>
      obtain ⟨k', v'⟩ := p
      by_cases h : k' = k <;> simp [dictKeys, dictSet, h] at ih ⊢ <;> tauto

/-! ### Helper lemmas: list indexing -/

lemma get_append_cons {α : Type} (l l₁ l₂ : List α) (x : α) (i : Nat)
    (hl : l = l₁ ++ x :: l₂) (hi : l₁.length = i) (h : i < l.length) :
    l.get ⟨i, h⟩ = x := by
  subst hl
  subst hi
  rw [List.get_eq_getElem, List.getElem_append_right (Nat.le_refl _)]
  simp

lemma take_append_cons {α : Type} (l₁ l₂ : List α) (x : α) (i : Nat) (hl : l₁.length = i) :
    (l₁ ++ x :: l₂).take i = l₁ := by
  subst hl
  exact List.take_left l₁ (x :: l₂)

/-! ### Helper lemmas: the section-writing loop -/

lemma writeLoop_cons_none {author : AuthorCall → Option String} {aud : String}
    {s : Section} {comp : List String} {sc : Dict}
    (rest : List Section) (calls : List AuthorCall)
    (h : author (mkCall s aud comp sc) = none) :
    writeLoop author aud (s :: rest) comp sc calls = none := by
  simp [writeLoop, h]

lemma writeLoop_cons_some {author : AuthorCall → Option String} {aud : String}
    {s : Section} {comp : List String} {sc : Dict} {c : String}
    (rest : List Section) (calls : List AuthorCall)
    (h : author (mkCall s aud comp sc) = some c) :
    writeLoop author aud (s :: rest) comp sc calls =
      writeLoop author aud rest (comp ++ [s.title]) (dictSet sc s.title c)
        (calls ++ [mkCall s aud comp sc]) := by
  simp [writeLoop, h]

lemma writeLoop_append (author : AuthorCall → Option String) (aud : String)
    (xs ys : List Section) :
    ∀ (comp : List String) (sc : Dict) (calls : List AuthorCall),
      writeLoop author aud (xs ++ ys) comp sc calls =
        (writeLoop author aud xs comp sc calls).bind
          (fun out => writeLoop author aud ys out.2.1 out.1 out.2.2) := by
  induction xs with
  | nil =>
      intro comp sc calls
      simp [writeLoop]
  | cons x xs ih =>
      intro comp sc calls
      cases h : author (mkCall x aud comp sc) with
      | none =>
          rw [List.cons_append, writeLoop_cons_none (xs ++ ys) calls h,
            writeLoop_cons_none xs calls h]
          rfl
      | some c =>
          rw [List.cons_append, writeLoop_cons_some (xs ++ ys) calls h,
            writeLoop_cons_some xs calls h, ih]

lemma writeLoop_some_spec (author : AuthorCall → Option String) (aud : String) :
    ∀ (sections : List Section) (comp : List String) (sc : Dict) (calls : List AuthorCall)
      (sc' : Dict) (comp' : List String) (calls' : List AuthorCall),
      writeLoop author aud sections comp sc calls = some (sc', comp', calls') →
      comp' = comp ++ sections.map Section.title ∧
      ∃ L, calls' = calls ++ L ∧ L.length = sections.length := by
  intro sections
  induction sections with
  | nil =>
      intro comp sc calls sc' comp' calls' h
      simp [writeLoop] at h
      obtain ⟨-, h2, h3⟩ := h
      exact ⟨by simp [h2], [], by simp [h3], rfl⟩
  | cons s rest ih =>
      intro comp sc calls sc' comp' calls' h
      cases hc : author (mkCall s aud comp sc) with
      | none =>
          rw [writeLoop_cons_none rest calls hc] at h
          exact absurd h (by simp)
      | some c =>
          rw [writeLoop_cons_some rest calls hc] at h
          obtain ⟨hcomp, L, hcalls, hlen⟩ := ih _ _ _ _ _ _ h
          refine ⟨by rw [hcomp]; simp, mkCall s aud comp sc :: L, by rw [hcalls]; simp, by simp [hlen]⟩

lemma writeLoop_keys (author : AuthorCall → Option String) (aud : String) :
    ∀ (sections : List Section) (comp : List String) (sc : Dict) (calls : List AuthorCall)
      (sc' : Dict) (comp' : List String) (calls' : List AuthorCall),
      writeLoop author aud sections comp sc calls = some (sc', comp', calls') →
      ∀ t, t ∈ dictKeys sc' ↔ (t ∈ dictKeys sc ∨ t ∈ sections.map Section.title) := by
  intro sections
  induction sections with
  | nil =>
      intro comp sc calls sc' comp' calls' h t
      simp [writeLoop] at h
      obtain ⟨h1, -, -⟩ := h
      simp [h1]
  | cons s rest ih =>
      intro comp sc calls sc' comp' calls' h t
      cases hc : author (mkCall s aud comp sc) with
      | none =>
          rw [writeLoop_cons_none rest calls hc] at h
          exact absurd h (by simp)
      | some c =>
          rw [writeLoop_cons_some rest calls hc] at h
          rw [ih _ _ _ _ _ _ h t, mem_dictKeys_set]
          simp
          tauto

lemma writeLoop_get_untouched (author : AuthorCall → Option String) (aud : String) :
    ∀ (sections : List Section) (comp : List String) (sc : Dict) (calls : List AuthorCall)
      (sc' : Dict) (comp' : List String) (calls' : List AuthorCall),
      writeLoop author aud sections comp sc calls = some (sc', comp', calls') →
      ∀ t, t ∉ sections.map Section.title → dictGet sc' t "" = dictGet sc t "" := by
  intro sections
  induction sections with
  | nil =>
      intro comp sc calls sc' comp' calls' h t ht
      simp [writeLoop] at h
      obtain ⟨h1, -, -⟩ := h
      rw [h1]
  | cons s rest ih =>
      intro comp sc calls sc' comp' calls' h t ht
      simp at ht
      cases hc : author (mkCall s aud comp sc) with
      | none =>
          rw [writeLoop_cons_none rest calls hc] at h
          exact absurd h (by simp)
      | some c =>
          rw [writeLoop_cons_some rest calls hc] at h
          rw [ih _ _ _ _ _ _ h t (by simp; exact fun s' hs' => ht.2 s' hs'),
            dictGet_set_ne _ _ _ _ _ ht.1]

/-- Decomposition of a successful loop run at section index `i`:
the prefix run, the `i`-th author call (with its exact argument
record), the author's returned content, and the continuation. -/
lemma writeLoop_step_spec (author : AuthorCall → Option String) (aud : String)
    (sections : List Section) (sc0 : Dict) (sc' : Dict) (comp' : List String)
    (calls' : List AuthorCall)
    (hrun : writeLoop author aud sections [] sc0 [] = some (sc', comp', calls'))
    (i : Nat) (hi : i < sections.length) :
    ∃ (sc_i : Dict) (c : String) (hlen : i < calls'.length),
      writeLoop author aud (sections.take i) [] sc0 [] =
        some (sc_i, (sections.take i).map Section.title, calls'.take i) ∧
      calls'.get ⟨i, hlen⟩ =
        mkCall (sections.get ⟨i, hi⟩) aud ((sections.take i).map Section.title) sc_i ∧
      author (calls'.get ⟨i, hlen⟩) = some c ∧
      writeLoop author aud (sections.drop (i + 1))
        ((sections.take i).map Section.title ++ [(sections.get ⟨i, hi⟩).title])
        (dictSet sc_i (sections.get ⟨i, hi⟩).title c)
        (calls'.take i ++ [calls'.get ⟨i, hlen⟩]) = some (sc', comp', calls') := by
  have hsplit : (writeLoop author aud (sections.take i) [] sc0 []).bind
      (fun out => writeLoop author aud (sections.drop i) out.2.1 out.1 out.2.2) =
      some (sc', comp', calls') := by
    rw [← writeLoop_append, List.take_append_drop]
    exact hrun
  cases hpre : writeLoop author aud (sections.take i) [] sc0 [] with
  | none =>
      rw [hpre] at hsplit
      exact absurd hsplit (by simp)
  | some mid =>
      obtain ⟨sc_i, comp_i, calls_i⟩ := mid
      rw [hpre] at hsplit
      simp only [Option.some_bind] at hsplit
      obtain ⟨hcomp_i, L, hcalls_i, hLlen⟩ := writeLoop_some_spec _ _ _ _ _ _ _ _ _ hpre
      simp only [List.nil_append] at hcomp_i hcalls_i
      subst hcomp_i
      subst hcalls_i
      have hLi : calls_i.length = i := by
        rw [hLlen, List.length_take]
        exact Nat.min_eq_left (Nat.le_of_lt hi)
      have hdrop : sections.drop i = sections.get ⟨i, hi⟩ :: sections.drop (i + 1) := by
        rw [List.get_eq_getElem]
        exact (List.getElem_cons_drop sections i hi).symm
      rw [hdrop] at hsplit
      cases hc : author (mkCall (sections.get ⟨i, hi⟩) aud
          ((sections.take i).map Section.title) sc_i) with
      | none =>
          rw [writeLoop_cons_none (sections.drop (i + 1)) calls_i hc] at hsplit
          exact absurd hsplit (by simp)
      | some c =>
          rw [writeLoop_cons_some (sections.drop (i + 1)) calls_i hc] at hsplit
          obtain ⟨-, L', hcalls', -⟩ := writeLoop_some_spec _ _ _ _ _ _ _ _ _ hsplit
          have hcalls'2 : calls' = calls_i ++ (mkCall (sections.get ⟨i, hi⟩) aud
              ((sections.take i).map Section.title) sc_i :: L') := by
            rw [hcalls']
            simp
          have hlen : i < calls'.length := by
            rw [hcalls'2, List.length_append, List.length_cons, ← hLi]
            omega
          have hget : calls'.get ⟨i, hlen⟩ = mkCall (sections.get ⟨i, hi⟩) aud
              ((sections.take i).map Section.title) sc_i :=
            get_append_cons calls' calls_i L' _ i hcalls'2 hLi hlen
          have htake : calls'.take i = calls_i := by
            rw [hcalls'2]
            exact take_append_cons _ _ _ _ hLi
          refine ⟨sc_i, c, hlen, ?_, hget, ?_, ?_⟩
          · rw [htake]
          · rw [hget]
            exact hc
          · rw [htake, hget]
            exact hsplit

/-- Inversion of a successful `write_and_compile_guide` run. -/
lemma write_and_compile_some_elim {author : AuthorCall → Option String} {aud : String}
    {outline : GuideOutline} {sc0 : Dict} {r : RunResult}
    (h : write_and_compile_guide author aud outline sc0 = some r) :
    ∃ comp', writeLoop author aud outline.sections [] sc0 [] =
        some (r.sections_content, comp', r.calls) ∧
      r.document = compileGuide outline r.sections_content := by
  unfold write_and_compile_guide at h
  cases hw : writeLoop author aud outline.sections [] sc0 [] with
  | none =>
      rw [hw] at h
      exact absurd h (by simp)
  | some out =>
      obtain ⟨sc, comp, calls⟩ := out
      rw [hw] at h
      simp only [Option.some_inj] at h
      refine ⟨comp, ?_, ?_⟩
      · rw [← h]
      · rw [← h]

/-- A failed loop means `write_and_compile_guide` returns `none`. -/
lemma write_and_compile_none {author : AuthorCall → Option String} {aud : String}
    {outline : GuideOutline} {sc0 : Dict}
    (h : writeLoop author aud outline.sections [] sc0 [] = none) :
    write_and_compile_guide author aud outline sc0 = none := by
  unfold write_and_compile_guide
  rw [h]

/-- Every prefix of a successful loop run is itself a successful run. -/
lemma writeLoop_take_some {author : AuthorCall → Option String} {aud : String}
    {sections : List Section} {sc0 : Dict} {out : Dict × List String × List AuthorCall}
    (hrun : writeLoop author aud sections [] sc0 [] = some out) (i : Nat) :
    ∃ mid, writeLoop author aud (sections.take i) [] sc0 [] = some mid := by
  have hsplit : (writeLoop author aud (sections.take i) [] sc0 []).bind
      (fun m => writeLoop author aud (sections.drop i) m.2.1 m.1 m.2.2) = some out := by
    rw [← writeLoop_append, List.take_append_drop]
    exact hrun
  cases hpre : writeLoop author aud (sections.take i) [] sc0 [] with
  | none =>
      rw [hpre] at hsplit
      exact absurd hsplit (by simp)
  | some mid => exact ⟨mid, rfl⟩

lemma strJoinMap_congr {α : Type} (f g : α → String) (l : List α)
    (h : ∀ x ∈ l, f x = g x) : strJoinMap f l = strJoinMap g l := by
  induction l with
  | nil => rfl
  | cons x l ih =>
      rw [strJoinMap, strJoinMap, h x (by simp), ih (fun y hy => h y (by simp [hy]))]

/-- One unfolding step of the audience loop. -/
lemma collectAudienceLevel_cons (a : String) (rest : List String) :
    collectAudienceLevel (a :: rest) =
      if strLower a = "beginner" ∨ strLower a = "intermediate" ∨ strLower a = "advanced" then
        some (strLower a, rest)
      else collectAudienceLevel rest := rfl

/-- Round trip for the section list. -/
lemma sectionsFromJson_map_toJson (l : List Section) :
    sectionsFromJson (l.map sectionToJson) = Except.ok l := by
  induction l with
  | nil => rfl
  | cons s l ih =>
      obtain ⟨t, d⟩ := s
      simp [sectionsFromJson, sectionFromJson, sectionToJson, jsonLookup, reqField,
        asString, ih, Except.bind, Except.map]

/-- Round trip for the outline: serializing and re-validating is the
identity. -/
lemma guideOutline_json_roundtrip (g : GuideOutline) :
    guideOutlineFromJson (guideOutlineToJson g) = Except.ok g := by
  obtain ⟨t, intro, aud, secs, conc⟩ := g
  simp [guideOutlineToJson, guideOutlineFromJson, reqField, jsonLookup, asString,
    asSectionList, sectionsFromJson_map_toJson, Except.bind, Except.map]

/-! ### Claim theorems -/

/-- C1: for every completed run on an outline with K sections, the
section compiler invokes the author capability exactly K times, once
per section in outline order, each invocation receiving that section's
title and description, the state's audience level, the rendered
previous-sections context of the loop state at that iteration, and an
empty draft placeholder. -/
theorem c1_author_invocation_trace (author : AuthorCall → Option String) (aud : String)
    (outline : GuideOutline) (r : RunResult)
    (h : write_and_compile_guide author aud outline [] = some r) :
    r.calls.length = outline.sections.length ∧
    ∀ (i : Nat) (hi : i < outline.sections.length) (hlen : i < r.calls.length),
      (r.calls.get ⟨i, hlen⟩).section_title = (outline.sections.get ⟨i, hi⟩).title ∧
      (r.calls.get ⟨i, hlen⟩).section_description = (outline.sections.get ⟨i, hi⟩).description ∧
      (r.calls.get ⟨i, hlen⟩).audience_level = aud ∧
      (r.calls.get ⟨i, hlen⟩).draft_content = "" ∧
      ∃ sc_i, writeLoop author aud (outline.sections.take i) [] [] [] =
          some (sc_i, (outline.sections.take i).map Section.title, r.calls.take i) ∧
        (r.calls.get ⟨i, hlen⟩).previous_sections =
          renderContext ((outline.sections.take i).map Section.title) sc_i := by
  obtain ⟨comp', hw, -⟩ := write_and_compile_some_elim h
  constructor
  · obtain ⟨-, L, hL, hLlen⟩ := writeLoop_some_spec _ _ _ _ _ _ _ _ _ hw
    rw [hL, List.nil_append, hLlen]
  · intro i hi hlen
    obtain ⟨sc_i, c, hlen', hpre, hget, hauth, hcont⟩ :=
      writeLoop_step_spec _ _ _ _ _ _ _ hw i hi
    rw [hget]
    exact ⟨rfl, rfl, rfl, rfl, sc_i, hpre, rfl⟩

/-- C2: in every completed run, the context passed to the author for
section i (0-indexed here) is the literal sentence when i = 0, and
otherwise is the header followed by, for each of the first i section
titles in order, a heading block and that title's stored content in
the `sections_content` map as it stood at that iteration. -/
theorem c2_previous_sections_context (author : AuthorCall → Option String) (aud : String)
    (outline : GuideOutline) (r : RunResult)
    (h : write_and_compile_guide author aud outline [] = some r)
    (i : Nat) (hi : i < outline.sections.length) (hlen : i < r.calls.length) :
    (i = 0 → (r.calls.get ⟨i, hlen⟩).previous_sections =
      "No previous sections written yet.") ∧
    (0 < i → ∃ sc_i,
      writeLoop author aud (outline.sections.take i) [] [] [] =
        some (sc_i, (outline.sections.take i).map Section.title, r.calls.take i) ∧
      (r.calls.get ⟨i, hlen⟩).previous_sections =
        "# Previously Written Sections\n\n" ++
          strJoinMap (fun t => "## " ++ t ++ "\n\n" ++ (dictGet sc_i t "" ++ "\n\n"))
            ((outline.sections.take i).map Section.title)) := by
  obtain ⟨comp', hw, -⟩ := write_and_compile_some_elim h
  obtain ⟨sc_i, c, hlen', hpre, hget, hauth, hcont⟩ :=
    writeLoop_step_spec _ _ _ _ _ _ _ hw i hi
  constructor
  · intro hi0
    subst hi0
    rw [hget]
    simp [mkCall, renderContext]
  · intro hipos
    refine ⟨sc_i, hpre, ?_⟩
    rw [hget]
    show renderContext ((outline.sections.take i).map Section.title) sc_i = _
    rw [renderContext_eq_of_ne_nil]
    intro hnil
    have hlen2 : ((outline.sections.take i).map Section.title).length = i := by
      simp [List.length_take, Nat.min_eq_left (Nat.le_of_lt hi)]
    rw [hnil] at hlen2
    simp at hlen2
    omega

/-- C3: the final document of a completed run is exactly the title
heading, a blank line, the Introduction heading and text, then each
section's stored raw content in outline order, then the Conclusion
heading and text; and the document depends on the content mapping only
through the per-title lookups, so any storage order with the same
lookups yields the same document. -/
theorem c3_document_structure (author : AuthorCall → Option String) (aud : String)
    (outline : GuideOutline) (r : RunResult)
    (h : write_and_compile_guide author aud outline [] = some r) :
    r.document =
      "# " ++ outline.title ++ "\n\n" ++
        ("## Introduction\n\n" ++ outline.introduction ++ "\n\n") ++
      strJoinMap (fun s => "\n\n" ++ dictGet r.sections_content s.title "" ++ "\n\n")
        outline.sections ++
      ("## Conclusion\n\n" ++ outline.conclusion ++ "\n\n") ∧
    ∀ sc₂ : Dict, (∀ t, dictGet sc₂ t "" = dictGet r.sections_content t "") →
      compileGuide outline sc₂ = r.document := by
  obtain ⟨comp', hw, hdoc⟩ := write_and_compile_some_elim h
  constructor
  · rw [hdoc, compileGuide_eq]
  · intro sc₂ hsc
    rw [hdoc, compileGuide_eq, compileGuide_eq,
      strJoinMap_congr (fun s => "\n\n" ++ dictGet sc₂ s.title "" ++ "\n\n")
        (fun s => "\n\n" ++ dictGet r.sections_content s.title "" ++ "\n\n")
        outline.sections (fun s _ => by simp only [hsc])]

/-- C4: starting from the empty content map, at every point of the run
the keys of `sections_content` are exactly the titles of the sections
processed so far (hence always drawn from the outline's titles), and
when the compile step reads the map every outline section title is
present. -/
theorem c4_keys_invariant (author : AuthorCall → Option String) (aud : String)
    (outline : GuideOutline) (r : RunResult)
    (h : write_and_compile_guide author aud outline [] = some r) :
    (∀ i, i ≤ outline.sections.length →
      ∃ sc_i comp_i calls_i,
        writeLoop author aud (outline.sections.take i) [] [] [] =
          some (sc_i, comp_i, calls_i) ∧
        ∀ t, t ∈ dictKeys sc_i ↔ t ∈ (outline.sections.take i).map Section.title) ∧
    (∀ s ∈ outline.sections, s.title ∈ dictKeys r.sections_content) := by
  obtain ⟨comp', hw, -⟩ := write_and_compile_some_elim h
  constructor
  · intro i hi
    obtain ⟨⟨sc_i, comp_i, calls_i⟩, hpre⟩ := writeLoop_take_some hw i
    refine ⟨sc_i, comp_i, calls_i, hpre, fun t => ?_⟩
    rw [writeLoop_keys _ _ _ _ _ _ _ _ _ hpre t]
    simp [dictKeys]
  · intro s hs
    rw [writeLoop_keys _ _ _ _ _ _ _ _ _ hw s.title]
    exact Or.inr (List.mem_map.mpr ⟨s, hs, rfl⟩)

/-- C5: if the author capability fails on section N (after the first N
sections succeeded), the run produces no document at all — the
already-generated contents are never persisted, because the single
document write happens only after every section has been authored,
which is also why a successful run's call count equals the section
count. -/
theorem c5_midloop_failure_writes_nothing :
    (∀ (author : AuthorCall → Option String) (aud : String) (outline : GuideOutline)
       (N : Nat) (hN : N < outline.sections.length)
       (sc_N : Dict) (calls_N : List AuthorCall),
       writeLoop author aud (outline.sections.take N) [] [] [] =
         some (sc_N, (outline.sections.take N).map Section.title, calls_N) →
       author (mkCall (outline.sections.get ⟨N, hN⟩) aud
         ((outline.sections.take N).map Section.title) sc_N) = none →
       write_and_compile_guide author aud outline [] = none) ∧
    (∀ (author : AuthorCall → Option String) (aud : String) (outline : GuideOutline)
       (r : RunResult),
       write_and_compile_guide author aud outline [] = some r →
       r.calls.length = outline.sections.length) := by
  constructor
  · intro author aud outline N hN sc_N calls_N hpre hfail
    apply write_and_compile_none
    have hdrop : outline.sections.drop N =
        outline.sections.get ⟨N, hN⟩ :: outline.sections.drop (N + 1) := by
      rw [List.get_eq_getElem]
      exact (List.getElem_cons_drop outline.sections N hN).symm
    rw [← List.take_append_drop N outline.sections, writeLoop_append, hpre,
      Option.some_bind, hdrop,
      writeLoop_cons_none (outline.sections.drop (N + 1)) calls_N hfail]
  · intro author aud outline r h
    obtain ⟨comp', hw, -⟩ := write_and_compile_some_elim h
    obtain ⟨-, L, hL, hLlen⟩ := writeLoop_some_spec _ _ _ _ _ _ _ _ _ hw
    rw [hL, List.nil_append, hLlen]

/-- C6: serializing any `GuideOutline` to JSON and re-validating the
parsed JSON reproduces an equal outline in all five fields. -/
theorem c6_outline_roundtrip (g : GuideOutline) :
    guideOutlineFromJson (guideOutlineToJson g) = Except.ok g :=
  guideOutline_json_roundtrip g

/-- C7: the outline stage fails exactly when the model's text is not
valid JSON (the parse oracle is `none`) or the parsed JSON does not
validate against the `GuideOutline` shape, with no partial-outline
fallback; and on success any section count (including 0) is accepted —
the 4-6 hint is not enforced. -/
theorem c7_outline_failure_modes :
    (∀ p : Option Json,
       (∃ e, create_guide_outline p = Except.error e) ↔
       (p = none ∨ ∃ j, p = some j ∧ ∃ e, guideOutlineFromJson j = Except.error e)) ∧
    (∀ n : Nat, ∃ g : GuideOutline, g.sections.length = n ∧
       create_guide_outline (some (guideOutlineToJson g)) = Except.ok g) := by
  constructor
  · intro p
    cases p with
    | none => simp [create_guide_outline]
    | some j => simp [create_guide_outline]
  · intro n
    refine ⟨{ title := "t"
              introduction := "i"
              target_audience := "a"
              sections := List.replicate n { title := "s", description := "d" }
              conclusion := "c" }, by simp, ?_⟩
    exact guideOutline_json_roundtrip _

/-- C8: the audience loop accepts, on the first attempt and consuming
exactly one input, every answer whose lower-cased form is one of the
three levels; it skips, without bound and without ever surfacing an
error value, any run of answers whose lower-cased forms all lie outside
that set; and the topic is stored unvalidated. -/
theorem c8_audience_validation :
    (∀ (a : String) (rest : List String),
       (strLower a = "beginner" ∨ strLower a = "intermediate" ∨ strLower a = "advanced") →
       collectAudienceLevel (a :: rest) = some (strLower a, rest)) ∧
    (∀ (junk rest : List String),
       (∀ a ∈ junk,
         ¬(strLower a = "beginner" ∨ strLower a = "intermediate" ∨ strLower a = "advanced")) →
       collectAudienceLevel (junk ++ rest) = collectAudienceLevel rest) ∧
    (∀ (t : String) (rest : List String),
       get_user_input (t :: rest) = (collectAudienceLevel rest).map
         (fun p => ({ initialState with topic := t, audience_level := p.1 }, p.2))) := by
  refine ⟨?_, ?_, ?_⟩
  · intro a rest hvalid
    rw [collectAudienceLevel_cons, if_pos hvalid]
  · intro junk rest hjunk
    induction junk with
    | nil => rfl
    | cons a junk ih =>
        rw [List.cons_append, collectAudienceLevel_cons,
          if_neg (hjunk a (by simp)), ih (fun b hb => hjunk b (by simp [hb]))]
  · intro t rest
    cases hc : collectAudienceLevel rest with
    | none => simp [get_user_input, hc]
    | some p =>
        obtain ⟨audience, rest'⟩ := p
        simp [get_user_input, hc]

/-- C9: when two sections share a title and the later one is the last
occurrence of that title, the content map retains only the content the
author produced for that later occurrence (the earlier one is silently
overwritten), so every occurrence of the title reads the same
later-authored content when the final document is compiled. -/
theorem c9_duplicate_title_overwrite (author : AuthorCall → Option String) (aud : String)
    (outline : GuideOutline) (r : RunResult)
    (h : write_and_compile_guide author aud outline [] = some r)
    (i j : Nat) (hi : i < outline.sections.length) (hj : j < outline.sections.length)
    (_hij : i < j)
    (hdup : (outline.sections.get ⟨j, hj⟩).title = (outline.sections.get ⟨i, hi⟩).title)
    (hlast : ∀ s ∈ outline.sections.drop (j + 1),
       Section.title s ≠ (outline.sections.get ⟨i, hi⟩).title) :
    ∃ (hlen : j < r.calls.length) (c : String),
      author (r.calls.get ⟨j, hlen⟩) = some c ∧
      ∀ (l : Nat) (hl : l < outline.sections.length),
        (outline.sections.get ⟨l, hl⟩).title = (outline.sections.get ⟨i, hi⟩).title →
        dictGet r.sections_content ((outline.sections.get ⟨l, hl⟩).title) "" = c := by
  obtain ⟨comp', hw, -⟩ := write_and_compile_some_elim h
  obtain ⟨sc_j, c, hlen, hpre, hget, hauth, hcont⟩ :=
    writeLoop_step_spec _ _ _ _ _ _ _ hw j hj
  refine ⟨hlen, c, hauth, ?_⟩
  intro l hl htitle
  rw [htitle]
  have huntouched := writeLoop_get_untouched _ _ _ _ _ _ _ _ _ hcont
    ((outline.sections.get ⟨i, hi⟩).title)
    (by
      intro hmem
      obtain ⟨s, hs, hst⟩ := List.mem_map.mp hmem
      exact hlast s hs hst)
  rw [huntouched, ← hdup, dictGet_set_self]

/-- C10: for every request, the handler returns the fixed
acknowledgement carrying the request's topic and audience and schedules
the author capability on the near-empty outline templated from the
topic (the outline generator is never consulted — the scheduled outline
is this constant, degenerate one); any exception during construction or
dispatch instead yields an HTTP 500 response carrying the exception's
message, with nothing scheduled. -/
theorem c10_http_trigger :
    (∀ req : GuideRequest,
       create_guide req none =
         (ServerResponse.ack "Guide creation task started successfully"
            req.topic req.target_audience,
          some { title := "Comprehensive Guide to " ++ req.topic, introduction := "",
                 target_audience := req.target_audience, sections := [],
                 conclusion := "" })) ∧
    (∀ (req : GuideRequest) (msg : String),
       create_guide req (some msg) = (ServerResponse.httpError 500 msg, none)) :=
  ⟨fun _ => rfl, fun _ _ => rfl⟩

/-! ### Witness theorems -/

/-- Witness for C1: the two-section scenario run makes exactly two
author calls, and the second call carries the second section's title. -/
theorem c1_witness :
    okResult.calls.length = okOutline.sections.length ∧
    (okResult.calls.get ⟨1, by decide⟩).section_title =
      (okOutline.sections.get ⟨1, by decide⟩).title := by
  have h := c1_author_invocation_trace okAuthor "beginner" okOutline okResult (by decide)
  exact ⟨h.1, (h.2 1 (by decide) (by decide)).1⟩

/-- Witness for C2: in the two-section scenario the second call's
context is the header plus the first section's heading block and stored
content. -/
theorem c2_witness :
    ∃ sc_i, writeLoop okAuthor "beginner" (okOutline.sections.take 1) [] [] [] =
        some (sc_i, (okOutline.sections.take 1).map Section.title, okResult.calls.take 1) ∧
      (okResult.calls.get ⟨1, by decide⟩).previous_sections =
        "# Previously Written Sections\n\n" ++
          strJoinMap (fun t => "## " ++ t ++ "\n\n" ++ (dictGet sc_i t "" ++ "\n\n"))
            ((okOutline.sections.take 1).map Section.title) :=
  (c2_previous_sections_context okAuthor "beginner" okOutline okResult (by decide)
    1 (by decide) (by decide)).2 (by decide)

/-- Witness for C3: the scenario run's document is the expected
concatenation. -/
theorem c3_witness :
    okResult.document =
      "# " ++ okOutline.title ++ "\n\n" ++
        ("## Introduction\n\n" ++ okOutline.introduction ++ "\n\n") ++
      strJoinMap (fun s => "\n\n" ++ dictGet okResult.sections_content s.title "" ++ "\n\n")
        okOutline.sections ++
      ("## Conclusion\n\n" ++ okOutline.conclusion ++ "\n\n") :=
  (c3_document_structure okAuthor "beginner" okOutline okResult (by decide)).1

/-- Witness for C4: after the scenario run, the second section's title
is a key of the content map. -/
theorem c4_witness :
    ("Tools" : String) ∈ dictKeys okResult.sections_content :=
  (c4_keys_invariant okAuthor "beginner" okOutline okResult (by decide)).2
    { title := "Tools", description := "d2" } (by decide)

/-- Witness for C5: with the author failing on section 2 of 3, no
document is produced. -/
theorem c5_witness :
    write_and_compile_guide failingAuthor "beginner" failOutline [] = none :=
  c5_midloop_failure_writes_nothing.1 failingAuthor "beginner" failOutline 1 (by decide)
    [("A", "text for A")]
    [{ section_title := "A", section_description := "da", audience_level := "beginner",
       previous_sections := "No previous sections written yet.", draft_content := "" }]
    (by decide) (by decide)

/-- Witness for C8: a mixed-case valid answer is accepted at once, a
run of invalid answers is skipped, and an arbitrary topic is stored
as-is. -/
theorem c8_witness :
    collectAudienceLevel ["BeGinNer"] = some ("beginner", []) ∧
    collectAudienceLevel (["expert", "Pro"] ++ ["Advanced"]) =
      collectAudienceLevel ["Advanced"] ∧
    get_user_input ["Home Gardening", "InterMediate"] =
      some ({ initialState with
              topic := "Home Gardening"
              audience_level := "intermediate" }, []) :=
  ⟨c8_audience_validation.1 "BeGinNer" [] (by decide),
   c8_audience_validation.2.1 ["expert", "Pro"] ["Advanced"] (by decide),
   c8_audience_validation.2.2 "Home Gardening" ["InterMediate"]⟩

/-- Witness for C9: in the duplicate-title run, the second call's
authored content is what both occurrences of the title resolve to. -/
theorem c9_witness :
    ∃ (hlen : 1 < dupResult.calls.length) (c : String),
      echoAuthor (dupResult.calls.get ⟨1, hlen⟩) = some c ∧
      ∀ (l : Nat) (hl : l < dupOutline.sections.length),
        (dupOutline.sections.get ⟨l, hl⟩).title =
          (dupOutline.sections.get ⟨0, by decide⟩).title →
        dictGet dupResult.sections_content ((dupOutline.sections.get ⟨l, hl⟩).title) "" = c :=
  c9_duplicate_title_overwrite echoAuthor "beginner" dupOutline dupResult (by decide)
    0 1 (by decide) (by decide) (by decide) (by decide) (by decide)

end GuideCreator
